import Mathlib

/-!
Verification development for the papercut image-processing pipeline
(`Image_Processing.py`): a stylization pipeline (desaturate, contrast,
white-background keying, flat recolor) followed by scene compositing
(resize, recolor, optional rotation, alpha paste onto a background).

Images are shallowly embedded as grids (lists of rows) of RGBA pixels with
natural-number channels; channel values are intended in [0,255].  Floating
point quantities of the source (opacity, contrast factor, PIL blend and
mean arithmetic) are modelled with exact rationals; the truncating and
rounding casts of the source are modelled with explicit floors.  Pixel
kernels of the PIL library that the source calls (L conversion, blend,
paste-with-mask, HSV conversion, rotate-with-expand output size) are
transcribed from Pillow's implementation (convert.c, Blend.c, Paste.c,
Image.rotate); interpolation kernels (Lanczos resize, bicubic rotation
resampling) are kept as parameters, since none of the checked properties
depend on the interpolated pixel values.
-/

/-- An 8-bit RGBA pixel.  RGB-mode pixels of the source are embedded with
`a = 255` (PIL's RGB→RGBA conversion synthesizes a fully solid alpha (255)). -/
structure Pixel where
  r : Nat
  g : Nat
  b : Nat
  a : Nat
deriving DecidableEq, Repr

/-- A raster image: a list of rows of pixels. -/
abbrev Image := List (List Pixel)

/-- All channels of the pixel are in the 8-bit range. -/
def Pixel.valid (p : Pixel) : Prop :=
  p.r ≤ 255 ∧ p.g ≤ 255 ∧ p.b ≤ 255 ∧ p.a ≤ 255

instance (p : Pixel) : Decidable p.valid := by
  unfold Pixel.valid; infer_instance

/-- Apply a pixel kernel to every pixel of the image (numpy's whole-array
assignments in the source act pixelwise). -/
def Image.mapPixels (f : Pixel → Pixel) (img : Image) : Image :=
  img.map (List.map f)

/-- The pixel at row `i`, column `j`, if in range. -/
def Image.pixel (img : Image) (i j : Nat) : Option Pixel :=
  (img[i]?).bind fun row => row[j]?

/-- Number of rows (`PIL.Image.height`). -/
def Image.height (img : Image) : Nat := img.length

/-- Number of columns of the first row (`PIL.Image.width`; rows of a real
image all have this length). -/
def Image.width (img : Image) : Nat := (img.head?.map List.length).getD 0

theorem Image.pixel_mapPixels (f : Pixel → Pixel) (img : Image) (i j : Nat) :
    (Image.mapPixels f img).pixel i j = (img.pixel i j).map f := by
  unfold Image.mapPixels Image.pixel
  rw [List.getElem?_map]
  cases img[i]? with
  | none => rfl
  | some row => simp [List.getElem?_map]

theorem Image.pixel_mem (img : Image) (i j : Nat) (p : Pixel)
    (h : img.pixel i j = some p) : ∃ row ∈ img, p ∈ row := by
  unfold Image.pixel at h
  cases hrow : img[i]? with
  | none => rw [hrow] at h; cases h
  | some row =>
      rw [hrow] at h
      exact ⟨row, List.getElem?_mem hrow, List.getElem?_mem h⟩

/-! ### Stylization pipeline (`Image_Processing.py`, lines 11–65) -/

/-- Pillow's RGB → L ("luminance") conversion (`convert.c`):
`L = (R*19595 + G*38470 + B*7471 + 0x8000) >> 16`, the integer form of
`R*299/1000 + G*587/1000 + B*114/1000`. -/
def lum (r g b : Nat) : Nat :=
  (r * 19595 + g * 38470 + b * 7471 + 32768) / 65536

/-- Pixel kernel of `desaturate_image` (lines 11–14):
`ImageEnhance.Color(image).enhance(0.0)` returns the degenerate image
`image.convert("LA").convert("RGBA")` (PIL `Image.blend` with factor 0.0
returns its first argument): the gray level replicated over R,G,B, alpha
kept. -/
def desatPixel (p : Pixel) : Pixel :=
  let l := lum p.r p.g p.b
  ⟨l, l, l, p.a⟩

/-- `desaturate_image` (lines 11–14). -/
def desaturate_image (image : Image) : Image :=
  Image.mapPixels desatPixel image

/-- One channel of PIL `Image.blend(degenerate, image, factor)`
(`Blend.c`): `temp = in1 + factor*(in2 - in1)`, clipped to [0,255] and
truncated toward zero. -/
def blendChannel (factor : ℚ) (c1 c2 : Nat) : Nat :=
  let t : ℚ := (c1 : ℚ) + factor * ((c2 : ℚ) - (c1 : ℚ))
  if t ≤ 0 then 0 else if 255 ≤ t then 255 else (⌊t⌋).toNat

/-- The gray level `int(ImageStat.Stat(image.convert("L")).mean[0] + 0.5)`
used by `ImageEnhance.Contrast`: the mean of the L conversion over all
pixels, rounded half up. -/
def contrastMean (image : Image) : Nat :=
  let pixels := image.flatten
  let n := pixels.length
  let s := (pixels.map fun p => lum p.r p.g p.b).sum
  if n = 0 then 0 else (⌊(s : ℚ) / (n : ℚ) + 1/2⌋).toNat

/-- Pixel kernel of `ImageEnhance.Contrast(image).enhance(factor)`: blend
each RGB channel of the pixel against the uniform gray mean `m`; the
degenerate image carries the original alpha (`putalpha`), so alpha blends
with itself. -/
def contrastPixel (factor : ℚ) (m : Nat) (p : Pixel) : Pixel :=
  ⟨blendChannel factor m p.r, blendChannel factor m p.g,
   blendChannel factor m p.b, blendChannel factor p.a p.a⟩

/-- `increase_contrast` (lines 17–20). -/
def increase_contrast (image : Image) (factor : ℚ := 2) : Image :=
  Image.mapPixels (contrastPixel factor (contrastMean image)) image

/-- Pixel kernel of `remove_white_background` (lines 23–37): the white
mask is `(r > threshold) & (g > threshold) & (b > threshold)`; masked
pixels get alpha 0, all other channels are untouched. -/
def keyPixel (threshold : Nat) (p : Pixel) : Pixel :=
  if threshold < p.r ∧ threshold < p.g ∧ threshold < p.b then
    ⟨p.r, p.g, p.b, 0⟩
  else p

/-- `remove_white_background` (lines 23–37). -/
def remove_white_background (image : Image) (threshold : Nat := 240) : Image :=
  Image.mapPixels (keyPixel threshold) image

/-- Pixel kernel of `convert_to_red` (lines 40–65): non-transparent pixels
(`a > 0`) get the fixed color and alpha `(a * opacity).astype(np.uint8)`
(the numpy cast truncates the nonnegative product toward zero, i.e. floor);
transparent pixels become exactly (0,0,0,0). -/
def convertPixel (color : Nat × Nat × Nat) (opacity : ℚ) (p : Pixel) : Pixel :=
  if 0 < p.a then
    ⟨color.1, color.2.1, color.2.2, (⌊(p.a : ℚ) * opacity⌋).toNat⟩
  else ⟨0, 0, 0, 0⟩

/-- `convert_to_red` (lines 40–65). -/
def convert_to_red (image : Image) (color : Nat × Nat × Nat := (255, 0, 0))
    (opacity : ℚ := 1) : Image :=
  Image.mapPixels (convertPixel color opacity) image

/-- The stylization composition of `process_image_for_papercut`
(lines 108–122), with its knobs exposed: desaturate, contrast, key the
near-white background, recolor. -/
def stylize (factor : ℚ) (threshold : Nat) (color : Nat × Nat × Nat)
    (opacity : ℚ) (img : Image) : Image :=
  convert_to_red
    (remove_white_background (increase_contrast (desaturate_image img) factor) threshold)
    color opacity

/-- The exact parameter set of `process_image_for_papercut`
(lines 113–122): factor 3.0, threshold 230, default color (255,0,0),
default opacity 1.0. -/
def stylizePapercut (img : Image) : Image :=
  stylize 3 230 (255, 0, 0) 1 img

/-! ### Scene compositing primitives (`Image_Processing.py`, lines 144–335) -/

/-- Convert to RGB mode and back: drop the alpha channel.  In this RGBA
embedding an RGB pixel carries `a = 255` (which is also what
`convert('RGBA')` synthesizes when pasting begins). -/
def toRGB (img : Image) : Image :=
  Image.mapPixels (fun p => ⟨p.r, p.g, p.b, 255⟩) img

/-- Pillow's `MULDIV255` approximate division by 255
(`tmp = a*b + 128; ((tmp >> 8) + tmp) >> 8`). -/
def muldiv255 (a b : Nat) : Nat :=
  let t := a * b + 128
  ((t >>> 8) + t) >>> 8

/-- Pillow's per-channel paste-with-mask blend (`Paste.c`, `BLEND`):
`MULDIV255(bg, 255 - m) + MULDIV255(fg, m)`. -/
def blend8 (m c1 c2 : Nat) : Nat :=
  muldiv255 c1 (255 - m) + muldiv255 c2 m

/-- Blend a foreground pixel over a background pixel using the foreground
alpha as the mask (`paste(processed, (x, y), processed)` with an RGBA
mask uses its alpha band). -/
def pastePixel (bgp fgp : Pixel) : Pixel :=
  ⟨blend8 fgp.a bgp.r fgp.r, blend8 fgp.a bgp.g fgp.g,
   blend8 fgp.a bgp.b fgp.b, blend8 fgp.a bgp.a fgp.a⟩

/-- Map with an explicit starting index (structural helper for the
coordinate-indexed paste). -/
def mapFromIdx (f : Nat → α → β) : Nat → List α → List β
  | _, [] => []
  | n, a :: l => f n a :: mapFromIdx f (n + 1) l

/-- The foreground pixel that lands on background coordinate `(i, j)` when
the foreground is pasted with its top-left corner at `(x, y)`; `none` if
`(i, j)` is outside the pasted rectangle (PIL clips the paste box to the
background). -/
def fgAt (fg : Image) (x y : ℤ) (i j : Nat) : Option Pixel :=
  if 0 ≤ (i : ℤ) - y ∧ 0 ≤ (j : ℤ) - x then
    fg.pixel ((i : ℤ) - y).toNat ((j : ℤ) - x).toNat
  else none

/-- PIL `Image.paste(fg, (x, y), fg)` on an RGBA background: every
background pixel inside the pasted rectangle is blended against the
corresponding foreground pixel with the foreground alpha as mask;
pixels outside are untouched. -/
def pasteImage (bg fg : Image) (x y : ℤ) : Image :=
  mapFromIdx (fun i row =>
    mapFromIdx (fun j p =>
      match fgAt fg x y i j with
      | none => p
      | some f => pastePixel p f) 0 row) 0 bg

/-- The shared compositing tail of the four scene renders
(e.g. lines 176–179): convert the scene to RGBA, paste the processed
cutout at `(x, y)` with its own alpha as mask, flatten back to RGB. -/
def compositeRGB (scene fg : Image) (x y : ℤ) : Image :=
  toRGB (pasteImage (toRGB scene) fg x y)

/-! ### Scene geometry (lines 167–177, 207–221, 254–267, 301–321) -/

/-- The spec's anchor formula: top-left corner = center − size/2
(`x = center_x - target_width // 2`, `y = center_y - target_height // 2`). -/
def anchorFromCenter (center : ℤ × ℤ) (size : Nat × Nat) : ℤ × ℤ :=
  (center.1 - (size.1 / 2 : Nat), center.2 - (size.2 / 2 : Nat))

/-- Fixed resize target of the window scene (line 169). -/
def windowTargetSize : Nat × Nat := (1736, 1736)

/-- The window scene pastes at the fixed top-left coordinates
`x, y = 2890, 137` (line 174). -/
def windowPastePos : ℤ × ℤ := (2890, 137)

/-- Modelled from the spec: the fixed absolute center point which the
window scene's hard-coded top-left corner corresponds to
(2890 + 1736/2, 137 + 1736/2). -/
def windowCenter : ℤ × ℤ := (3758, 1005)

/-- Wall scene resize target (lines 209–211): height 49.48% of the scene
height, width from the cutout's aspect (`int` truncates toward zero;
the products are nonnegative, so floors). -/
def wallTargetSize (sceneH pw ph : Nat) : Nat × Nat :=
  let th := (⌊(sceneH : ℚ) * (4948 / 10000)⌋).toNat
  let tw := (⌊(th : ℚ) * ((pw : ℚ) / (ph : ℚ))⌋).toNat
  (tw, th)

/-- Wall scene center point (lines 217–218): 66.67% of width, 37.3% of
height. -/
def wallCenter (sceneW sceneH : Nat) : ℤ × ℤ :=
  (⌊(sceneW : ℚ) * (6667 / 10000)⌋, ⌊(sceneH : ℚ) * (373 / 1000)⌋)

/-- Wall scene anchor (lines 220–221): `x = center_x - target_width // 2`,
`y = center_y - target_height // 2`. -/
def wallAnchor (sceneW sceneH pw ph : Nat) : ℤ × ℤ :=
  let ts := wallTargetSize sceneH pw ph
  ((wallCenter sceneW sceneH).1 - (ts.1 / 2 : Nat),
   (wallCenter sceneW sceneH).2 - (ts.2 / 2 : Nat))

/-- Door scene resize target (lines 256–258): height 18% of the scene
height, width from the cutout's aspect. -/
def doorTargetSize (sceneH pw ph : Nat) : Nat × Nat :=
  let th := (⌊(sceneH : ℚ) * (18 / 100)⌋).toNat
  let tw := (⌊(th : ℚ) * ((pw : ℚ) / (ph : ℚ))⌋).toNat
  (tw, th)

/-- Door scene center point (lines 264–265): 62.45% of width, 36.3% of
height. -/
def doorCenter (sceneW sceneH : Nat) : ℤ × ℤ :=
  (⌊(sceneW : ℚ) * (6245 / 10000)⌋, ⌊(sceneH : ℚ) * (363 / 1000)⌋)

/-- Door scene anchor (lines 266–267). -/
def doorAnchor (sceneW sceneH pw ph : Nat) : ℤ × ℤ :=
  let ts := doorTargetSize sceneH pw ph
  ((doorCenter sceneW sceneH).1 - (ts.1 / 2 : Nat),
   (doorCenter sceneW sceneH).2 - (ts.2 / 2 : Nat))

/-- Package scene resize target (lines 303–305): width 25% of the scene
width, height from the cutout's aspect (`height / width` this time). -/
def packageTargetSize (sceneW pw ph : Nat) : Nat × Nat :=
  let tw := (⌊(sceneW : ℚ) * (25 / 100)⌋).toNat
  let th := (⌊(tw : ℚ) * ((ph : ℚ) / (pw : ℚ))⌋).toNat
  (tw, th)

/-- Package scene center point (lines 315–316): 48% of width, 48.33% of
height. -/
def packageCenter (sceneW sceneH : Nat) : ℤ × ℤ :=
  (⌊(sceneW : ℚ) * (48 / 100)⌋, ⌊(sceneH : ℚ) * (4833 / 10000)⌋)

/-- Package scene anchor (lines 319–321): computed from the size `(nw, nh)`
of the cutout as it is after rotation (`new_width, new_height =
processed_papercut.size`). -/
def packageAnchor (sceneW sceneH nw nh : Nat) : ℤ × ℤ :=
  ((packageCenter sceneW sceneH).1 - (nw / 2 : Nat),
   (packageCenter sceneW sceneH).2 - (nh / 2 : Nat))

/-- Resampling filters named by the source. -/
inductive Resample
  | nearest
  | bilinear
  | bicubic
  | lanczos
deriving DecidableEq, Repr

/-- The rotation applied in the package scene (line 312):
`rotate(33, expand=True, resample=Image.Resampling.BICUBIC)`. -/
structure RotationSpec where
  angle : ℤ
  expand : Bool
  resample : Resample
deriving DecidableEq, Repr

/-- The package scene rotation constants (line 312). -/
def packageRotationSpec : RotationSpec := ⟨33, true, Resample.bicubic⟩

/-- Output size of PIL `Image.rotate(angle, expand=True)` (`Image.rotate`):
the four corners of the `w × h` input are mapped through the rotation
about the image center (matrix entries `c = cos(angle)`, `s = sin(angle)`
passed here as exact rationals standing for the library's floats), and the
output size is `ceil(max) - floor(min)` of the transformed coordinates. -/
def pilRotateExpandSize (c s : ℚ) (w h : Nat) : Nat × Nat :=
  let cx : ℚ := (w : ℚ) / 2
  let cy : ℚ := (h : ℚ) / 2
  let tx : ℚ → ℚ → ℚ := fun px py => c * (px - cx) - s * (py - cy) + cx
  let ty : ℚ → ℚ → ℚ := fun px py => s * (px - cx) + c * (py - cy) + cy
  let maxx := max (max (tx 0 0) (tx (w : ℚ) 0)) (max (tx (w : ℚ) (h : ℚ)) (tx 0 (h : ℚ)))
  let minx := min (min (tx 0 0) (tx (w : ℚ) 0)) (min (tx (w : ℚ) (h : ℚ)) (tx 0 (h : ℚ)))
  let maxy := max (max (ty 0 0) (ty (w : ℚ) 0)) (max (ty (w : ℚ) (h : ℚ)) (ty 0 (h : ℚ)))
  let miny := min (min (ty 0 0) (ty (w : ℚ) 0)) (min (ty (w : ℚ) (h : ℚ)) (ty 0 (h : ℚ)))
  ((⌈maxx⌉ - ⌊minx⌋).toNat, (⌈maxy⌉ - ⌊miny⌋).toNat)

/-! ### HSV color-transfer blend (`apply_color_effect`, lines 68–95) -/

/-- Pillow's RGB → HSV conversion (`convert.c`, `rgb2hsv_row`, integer
math following `colorsys`): value = max channel; for non-gray pixels
saturation = `255*(max-min)/max` and the hue sextant arithmetic is done on
a 0..6*255 scale, normalized and divided by 6. -/
def rgb2hsv (r g b : Nat) : Nat × Nat × Nat :=
  let maxc := max r (max g b)
  let minc := min r (min g b)
  if minc = maxc then (0, 0, maxc)
  else
    let cr := maxc - minc
    let s := 255 * cr / maxc
    let rc := 255 * (maxc - r) / cr
    let gc := 255 * (maxc - g) / cr
    let bc := 255 * (maxc - b) / cr
    let h : ℤ :=
      if r = maxc then (bc : ℤ) - (gc : ℤ)
      else if g = maxc then 2 * 255 + (rc : ℤ) - (bc : ℤ)
      else 4 * 255 + (gc : ℤ) - (rc : ℤ)
    let hn := (h % (6 * 255)).toNat
    (hn / 6, s, maxc)

/-- Pillow's HSV → RGB conversion (`convert.c`, `hsv2rgb`, following
`colorsys`): gray when `s = 0`; otherwise the hue picks a sextant and the
three ramp values `p`, `q`, `t` are computed from exact rational
fractions and rounded half up. -/
def hsv2rgb (h s v : Nat) : Nat × Nat × Nat :=
  if s = 0 then (v, v, v)
  else
    let fh : ℚ := (h : ℚ) * 6 / 255
    let i : ℤ := ⌊fh⌋
    let f : ℚ := fh - (i : ℚ)
    let fs : ℚ := (s : ℚ) / 255
    let p := (⌊(v : ℚ) * (1 - fs) + 1/2⌋).toNat
    let q := (⌊(v : ℚ) * (1 - fs * f) + 1/2⌋).toNat
    let t := (⌊(v : ℚ) * (1 - fs * (1 - f)) + 1/2⌋).toNat
    match (i % 6).toNat with
    | 0 => (v, t, p)
    | 1 => (q, v, p)
    | 2 => (p, v, t)
    | 3 => (p, q, v)
    | 4 => (t, p, v)
    | _ => (v, p, q)

/-- The HSV composite built by `apply_color_effect` (line 92,
`np.dstack((h_channel, s_channel, v_channel))`): hue and saturation planes
come from the solid color layer's HSV conversion, the value plane from the
base image's HSV conversion. -/
def apply_color_effect_hsv (base_img : Image) (color : Nat × Nat × Nat) :
    List (List (Nat × Nat × Nat)) :=
  let chs := rgb2hsv color.1 color.2.1 color.2.2
  (toRGB base_img).map (List.map fun p => (chs.1, chs.2.1, (rgb2hsv p.r p.g p.b).2.2))

/-- `apply_color_effect` (lines 68–95): the HSV composite converted back
to RGB mode. -/
def apply_color_effect (base_img : Image) (color : Nat × Nat × Nat) : Image :=
  (apply_color_effect_hsv base_img color).map (List.map fun hsv =>
    let rgb := hsv2rgb hsv.1 hsv.2.1 hsv.2.2
    (⟨rgb.1, rgb.2.1, rgb.2.2, 255⟩ : Pixel))

/-! ### The five public operations (decode failures modelled as `Except`
inputs; the source's `try/except Exception: return None` wrapper maps any
failed decode to `None`, and interpolation kernels are parameters). -/

/-- `process_image_for_papercut` (lines 98–141): on a successful decode,
the stylization pipeline runs and an image is produced (the source then
saves it and returns its path); any failure is caught and `None` is
returned. -/
def process_image_for_papercut (input : Except String Image) : Option Image :=
  match input with
  | Except.ok image => some (stylizePapercut image)
  | Except.error _ => none

/-- `render_on_window` (lines 144–187): resize the cutout to 1736×1736
(Lanczos kernel abstracted as `resample`), recolor with (152,0,21) at
opacity 0.75, paste at the fixed position (2890,137), flatten to RGB. -/
def render_on_window (resample : Image → Nat → Nat → Image)
    (papercut_input scene_input : Except String Image) : Option Image :=
  match papercut_input, scene_input with
  | Except.ok papercut, Except.ok scene =>
      let resized := resample papercut windowTargetSize.1 windowTargetSize.2
      let processed := convert_to_red resized (152, 0, 21) (3/4)
      some (compositeRGB scene processed windowPastePos.1 windowPastePos.2)
  | _, _ => none

/-- `render_on_wall` (lines 190–234): scale to 49.48% of the background
height, recolor with (152,0,21) at opacity 0.9, paste centered at
(66.67%, 37.3%). -/
def render_on_wall (resample : Image → Nat → Nat → Image)
    (papercut_input scene_input : Except String Image) : Option Image :=
  match papercut_input, scene_input with
  | Except.ok papercut, Except.ok scene =>
      let ts := wallTargetSize scene.height papercut.width papercut.height
      let resized := resample papercut ts.1 ts.2
      let processed := convert_to_red resized (152, 0, 21) (9/10)
      let xy := wallAnchor scene.width scene.height papercut.width papercut.height
      some (compositeRGB scene processed xy.1 xy.2)
  | _, _ => none

/-- `render_on_door` (lines 237–281): scale to 18% of the background
height, recolor with (152,0,21) at opacity 0.9, paste centered at
(62.45%, 36.3%). -/
def render_on_door (resample : Image → Nat → Nat → Image)
    (papercut_input scene_input : Except String Image) : Option Image :=
  match papercut_input, scene_input with
  | Except.ok papercut, Except.ok scene =>
      let ts := doorTargetSize scene.height papercut.width papercut.height
      let resized := resample papercut ts.1 ts.2
      let processed := convert_to_red resized (152, 0, 21) (9/10)
      let xy := doorAnchor scene.width scene.height papercut.width papercut.height
      some (compositeRGB scene processed xy.1 xy.2)
  | _, _ => none

/-- `render_on_package` (lines 284–335): scale to 25% of the background
width, recolor with (152,0,21) at opacity 0.85, rotate by 33° CCW with
expanded canvas (bicubic kernel abstracted as `rot`), re-read the size
from the rotated image, paste centered at (48%, 48.33%). -/
def render_on_package (resample : Image → Nat → Nat → Image)
    (rot : Image → Image)
    (papercut_input scene_input : Except String Image) : Option Image :=
  match papercut_input, scene_input with
  | Except.ok papercut, Except.ok scene =>
      let ts := packageTargetSize scene.width papercut.width papercut.height
      let resized := resample papercut ts.1 ts.2
      let processed := convert_to_red resized (152, 0, 21) (85/100)
      let rotated := rot processed
      let xy := packageAnchor scene.width scene.height rotated.width rotated.height
      some (compositeRGB scene rotated xy.1 xy.2)
  | _, _ => none

/-- A decode input succeeded. -/
def decodeOk (e : Except String Image) : Prop :=
  ∃ img, e = Except.ok img

/-! ### Claims -/

/-- Claim C1: for every RGBA image and every threshold,
`remove_white_background` zeroes the alpha of exactly the pixels with
R, G and B all strictly greater than the threshold; every other pixel
keeps its alpha.  In particular a pixel whose three channels all equal
the threshold keeps its alpha, and with threshold 255 no valid pixel is
keyed. -/
theorem remove_white_background_keys_exactly_above_threshold
    (image : Image) (threshold : Nat) (i j : Nat) (p : Pixel)
    (hp : image.pixel i j = some p) (hv : p.valid) :
    ∃ q, (remove_white_background image threshold).pixel i j = some q ∧
      q.a = (if threshold < p.r ∧ threshold < p.g ∧ threshold < p.b then 0 else p.a) ∧
      (q.a = 0 ↔ (threshold < p.r ∧ threshold < p.g ∧ threshold < p.b) ∨ p.a = 0) ∧
      ((p.r = threshold ∧ p.g = threshold ∧ p.b = threshold) → q.a = p.a) ∧
      (threshold = 255 → q.a = p.a) := by
  refine ⟨keyPixel threshold p, ?_, ?_, ?_, ?_, ?_⟩
  · rw [remove_white_background, Image.pixel_mapPixels, hp]; rfl
  · unfold keyPixel; split <;> simp
  · unfold keyPixel; split <;> simp_all
  · intro hb
    unfold keyPixel
    have : ¬(threshold < p.r ∧ threshold < p.g ∧ threshold < p.b) := by omega
    simp [this]
  · intro h255
    unfold keyPixel
    have : ¬(threshold < p.r ∧ threshold < p.g ∧ threshold < p.b) := by
      obtain ⟨h1, h2, h3, h4⟩ := hv
      omega
    simp [this]

theorem remove_white_background_keys_exactly_above_threshold_witness :
    ∃ q, (remove_white_background [[⟨231, 240, 240, 200⟩]] 230).pixel 0 0 = some q ∧
      q.a = (if 230 < 231 ∧ 230 < 240 ∧ 230 < 240 then 0 else 200) ∧
      (q.a = 0 ↔ (230 < 231 ∧ 230 < 240 ∧ 230 < 240) ∨ 200 = 0) ∧
      ((231 = 230 ∧ 240 = 230 ∧ 240 = 230) → q.a = 200) ∧
      (230 = 255 → q.a = 200) :=
  remove_white_background_keys_exactly_above_threshold
    [[⟨231, 240, 240, 200⟩]] 230 0 0 ⟨231, 240, 240, 200⟩ rfl (by decide)

/-- Claim C10: `remove_white_background` never changes the R, G or B
channel of any pixel (including the keyed ones); only alpha is written. -/
theorem remove_white_background_preserves_rgb
    (image : Image) (threshold i j : Nat) :
    ((remove_white_background image threshold).pixel i j).map (fun q => (q.r, q.g, q.b))
      = (image.pixel i j).map (fun p => (p.r, p.g, p.b)) := by
  rw [remove_white_background, Image.pixel_mapPixels]
  cases image.pixel i j with
  | none => rfl
  | some p =>
      by_cases h : threshold < p.r ∧ threshold < p.g ∧ threshold < p.b <;>
        simp [keyPixel, h]

/-- Claim C2: `convert_to_red` maps every pixel with positive alpha to the
given color with alpha `floor(old_alpha * opacity)` (the truncating 8-bit
cast; with opacity 1 the alpha is exactly unchanged, and alpha 255 at
opacity 1/2 gives 127), and maps every pixel with zero alpha to exactly
(0,0,0,0) whatever its RGB was. -/
theorem convert_to_red_foreground_background_contract
    (image : Image) (color : Nat × Nat × Nat) (opacity : ℚ) (i j : Nat) (p : Pixel)
    (hp : image.pixel i j = some p) :
    ∃ q, (convert_to_red image color opacity).pixel i j = some q ∧
      (0 < p.a → q = ⟨color.1, color.2.1, color.2.2, (⌊(p.a : ℚ) * opacity⌋).toNat⟩) ∧
      (p.a = 0 → q = ⟨0, 0, 0, 0⟩) ∧
      (opacity = 1 → 0 < p.a → q.a = p.a) ∧
      (p.a = 255 → opacity = 1/2 → q.a = 127) := by
  refine ⟨convertPixel color opacity p, ?_, ?_, ?_, ?_, ?_⟩
  · rw [convert_to_red, Image.pixel_mapPixels, hp]; rfl
  · intro hpos; unfold convertPixel; simp [hpos]
  · intro hz; unfold convertPixel; simp [hz]
  · intro hop hpos
    unfold convertPixel
    simp [hpos, hop]
  · intro ha hop
    unfold convertPixel
    simp only [ha, hop]
    norm_num
    decide

theorem convert_to_red_foreground_background_contract_witness :
    ∃ q, (convert_to_red [[⟨10, 20, 30, 255⟩]] (152, 0, 21) (1/2)).pixel 0 0 = some q ∧
      (0 < 255 → q = ⟨152, 0, 21, (⌊((255 : Nat) : ℚ) * (1/2)⌋).toNat⟩) ∧
      ((255 : Nat) = 0 → q = ⟨0, 0, 0, 0⟩) ∧
      ((1/2 : ℚ) = 1 → 0 < 255 → q.a = 255) ∧
      ((255 : Nat) = 255 → (1/2 : ℚ) = 1/2 → q.a = 127) :=
  convert_to_red_foreground_background_contract
    [[⟨10, 20, 30, 255⟩]] (152, 0, 21) (1/2) 0 0 ⟨10, 20, 30, 255⟩ rfl

/-- Claim C5: in every scene variant the paste anchor equals
center − resized-size/2, where the center is a fixed absolute pixel
coordinate (window: (3758, 1005), equivalent to the hard-coded top-left
(2890, 137)) or a fraction of the background's dimensions (wall, door,
package). -/
theorem scene_anchor_center_formula (sceneW sceneH pw ph nw nh : Nat) :
    windowPastePos = anchorFromCenter windowCenter windowTargetSize
    ∧ wallAnchor sceneW sceneH pw ph
        = anchorFromCenter (wallCenter sceneW sceneH) (wallTargetSize sceneH pw ph)
    ∧ doorAnchor sceneW sceneH pw ph
        = anchorFromCenter (doorCenter sceneW sceneH) (doorTargetSize sceneH pw ph)
    ∧ packageAnchor sceneW sceneH nw nh
        = anchorFromCenter (packageCenter sceneW sceneH) (nw, nh) :=
  ⟨by decide, rfl, rfl, rfl⟩

theorem mapFromIdx_length (f : Nat → α → β) (n : Nat) (l : List α) :
    (mapFromIdx f n l).length = l.length := by
  induction l generalizing n with
  | nil => rfl
  | cons a l ih => simp [mapFromIdx, ih]

theorem mapFromIdx_getElem? (f : Nat → α → β) (n i : Nat) (l : List α) :
    (mapFromIdx f n l)[i]? = (l[i]?).map (f (n + i)) := by
  induction l generalizing n i with
  | nil => simp [mapFromIdx]
  | cons a l ih =>
      cases i with
      | zero => simp [mapFromIdx]
      | succ k =>
          have harith : n + 1 + k = n + (k + 1) := by omega
          simp [mapFromIdx, ih, harith]

theorem muldiv255_of_255 : ∀ c, c < 256 → muldiv255 c 255 = c := by
  intro c hc
  unfold muldiv255
  simp only [Nat.shiftRight_eq_div_pow]
  norm_num
  omega

theorem muldiv255_of_zero (a : Nat) : muldiv255 a 0 = 0 := by
  unfold muldiv255
  simp

theorem blend8_zero_mask (c f : Nat) (hc : c ≤ 255) : blend8 0 c f = c := by
  unfold blend8
  rw [muldiv255_of_zero]
  simpa using muldiv255_of_255 c (by omega)

theorem pasteImage_pixel (bg fg : Image) (x y : ℤ) (i j : Nat) :
    (pasteImage bg fg x y).pixel i j
      = (bg.pixel i j).map (fun p =>
          match fgAt fg x y i j with
          | none => p
          | some f => pastePixel p f) := by
  unfold pasteImage Image.pixel
  rw [mapFromIdx_getElem?]
  cases bg[i]? with
  | none => rfl
  | some row =>
      simp only [Nat.zero_add, Option.map, Option.bind]
      rw [mapFromIdx_getElem?]
      cases row[j]? with
      | none => rfl
      | some p => simp

theorem toRGB_pixel (img : Image) (i j : Nat) :
    (toRGB img).pixel i j
      = (img.pixel i j).map (fun p => ⟨p.r, p.g, p.b, 255⟩) := by
  unfold toRGB
  exact Image.pixel_mapPixels _ img i j

theorem mapFromIdx_map_length (f : Nat → List α → List β)
    (h : ∀ n row, (f n row).length = row.length) (n : Nat) (l : List (List α)) :
    (mapFromIdx f n l).map List.length = l.map List.length := by
  induction l generalizing n with
  | nil => rfl
  | cons a l ih => simp [mapFromIdx, h, ih]

/-- Claim C6: a scene composite (background converted to RGBA, cutout
pasted with its own alpha as mask, flattened back to RGB) keeps the
background's exact dimensions, carries no alpha (every pixel fully
solid after flattening), and leaves every background pixel outside the
pasted rectangle — and, inside it, every pixel where the cutout's alpha
is 0 — exactly equal to the original background pixel. -/
theorem composite_preserves_background_outside_cutout
    (scene fg : Image) (x y : ℤ) :
    (compositeRGB scene fg x y).height = scene.height
    ∧ (compositeRGB scene fg x y).map List.length = scene.map List.length
    ∧ (∀ i j q, (compositeRGB scene fg x y).pixel i j = some q → q.a = 255)
    ∧ (∀ i j p, scene.pixel i j = some p → p.valid →
        (fgAt fg x y i j = none ∨ (∃ f, fgAt fg x y i j = some f ∧ f.a = 0)) →
        (compositeRGB scene fg x y).pixel i j = some ⟨p.r, p.g, p.b, 255⟩) := by
  have houter : ∀ img : Image, (toRGB img).map List.length = img.map List.length := by
    intro img
    unfold toRGB Image.mapPixels
    rw [List.map_map]
    apply List.map_congr_left
    intro row _
    simp
  have hrows : (compositeRGB scene fg x y).map List.length = scene.map List.length := by
    unfold compositeRGB
    rw [houter]
    have hpaste : ∀ bg : Image, (pasteImage bg fg x y).map List.length = bg.map List.length := by
      intro bg
      unfold pasteImage
      exact mapFromIdx_map_length _ (fun n row => mapFromIdx_length _ _ _) 0 _
    rw [hpaste, houter]
  refine ⟨?_, hrows, ?_, ?_⟩
  · have := congrArg List.length hrows
    simpa [Image.height] using this
  · intro i j q hq
    unfold compositeRGB at hq
    rw [toRGB_pixel] at hq
    cases hpx : (pasteImage (toRGB scene) fg x y).pixel i j with
    | none => rw [hpx] at hq; cases hq
    | some p => rw [hpx] at hq; cases hq; rfl
  · intro i j p hp hv hmask
    unfold compositeRGB
    rw [toRGB_pixel, pasteImage_pixel, toRGB_pixel, hp]
    obtain ⟨hr, hg, hb, ha⟩ := hv
    rcases hmask with hnone | ⟨f, hf, hfa⟩
    · simp [hnone]
    · simp only [hf, Option.map]
      unfold pastePixel
      rw [hfa]
      simp [blend8_zero_mask _ _ hr, blend8_zero_mask _ _ hg, blend8_zero_mask _ _ hb]

theorem composite_preserves_background_outside_cutout_witness :
    (compositeRGB [[⟨7, 8, 9, 255⟩]] [[⟨1, 2, 3, 0⟩]] 0 0).pixel 0 0
      = some ⟨7, 8, 9, 255⟩ :=
  (composite_preserves_background_outside_cutout [[⟨7, 8, 9, 255⟩]] [[⟨1, 2, 3, 0⟩]] 0 0).2.2.2
    0 0 ⟨7, 8, 9, 255⟩ rfl (by decide) (Or.inr ⟨⟨1, 2, 3, 0⟩, rfl, rfl⟩)

/-- Claim C8: each public operation (the stylization pipeline entry and
the four scene renders, whose bodies are wrapped in a catch-all that
returns `None`) is total over all decode outcomes: it returns a non-`None`
image exactly when all its decodes succeed, and the distinguishable
failure value `none` otherwise, for any interpolation kernels. -/
theorem public_operations_failure_contract
    (resample : Image → Nat → Nat → Image) (rot : Image → Image)
    (papercut_input scene_input : Except String Image) :
    ((process_image_for_papercut papercut_input).isSome ↔ decodeOk papercut_input)
    ∧ ((render_on_window resample papercut_input scene_input).isSome
        ↔ decodeOk papercut_input ∧ decodeOk scene_input)
    ∧ ((render_on_wall resample papercut_input scene_input).isSome
        ↔ decodeOk papercut_input ∧ decodeOk scene_input)
    ∧ ((render_on_door resample papercut_input scene_input).isSome
        ↔ decodeOk papercut_input ∧ decodeOk scene_input)
    ∧ ((render_on_package resample rot papercut_input scene_input).isSome
        ↔ decodeOk papercut_input ∧ decodeOk scene_input) := by
  cases papercut_input with
  | error e =>
      cases scene_input <;>
        simp [process_image_for_papercut, render_on_window, render_on_wall,
          render_on_door, render_on_package, decodeOk]
  | ok p =>
      cases scene_input <;>
        simp [process_image_for_papercut, render_on_window, render_on_wall,
          render_on_door, render_on_package, decodeOk]

/-- Entry of a 2D grid at row `i`, column `j` (generic variant of
`Image.pixel` for HSV-triple grids). -/
def gridAt (g : List (List α)) (i j : Nat) : Option α :=
  (g[i]?).bind fun row => row[j]?

theorem gridAt_mapGrid (f : α → β) (g : List (List α)) (i j : Nat) :
    gridAt (g.map (List.map f)) i j = (gridAt g i j).map f := by
  unfold gridAt
  rw [List.getElem?_map]
  cases g[i]? with
  | none => rfl
  | some row => simp [List.getElem?_map]

theorem Image.pixel_eq_gridAt (img : Image) (i j : Nat) :
    img.pixel i j = gridAt img i j := rfl

/-- Claim C7 counterexample: on a single black background pixel with the
green target color (0,255,0), `apply_color_effect` outputs a black pixel,
whose measured HSV hue is 0, while the target color's hue is 85 — so the
output's hue channel is not everywhere equal to the target's hue. -/
theorem apply_color_effect_measured_hue_cex :
    ((apply_color_effect [[⟨0, 0, 0, 255⟩]] (0, 255, 0)).pixel 0 0).map
        (fun q => (rgb2hsv q.r q.g q.b).1)
      ≠ some ((rgb2hsv 0 255 0).1)
    ∧ ((apply_color_effect [[⟨0, 0, 0, 255⟩]] (0, 255, 0)).pixel 0 0).map
        (fun q => (rgb2hsv q.r q.g q.b).1) = some 0
    ∧ (rgb2hsv 0 255 0).1 = 85 := by
  have hgreen : rgb2hsv 0 255 0 = (85, 255, 255) := by decide
  have hblack : rgb2hsv 0 0 0 = (0, 0, 0) := by decide
  have hconv : hsv2rgb 85 255 0 = (0, 0, 0) := by
    unfold hsv2rgb
    norm_num
    decide
  have hpix : (apply_color_effect [[⟨0, 0, 0, 255⟩]] (0, 255, 0)).pixel 0 0
      = some ⟨0, 0, 0, 255⟩ := by
    unfold apply_color_effect apply_color_effect_hsv toRGB Image.mapPixels Image.pixel
    simp [hgreen, hblack, hconv]
  rw [hpix]
  refine ⟨?_, ?_, ?_⟩
  · simp only [Option.map, hgreen, hblack]
    decide
  · simp only [Option.map, hblack]
  · rw [hgreen]

/-- Claim C7 (amended): the HSV composite that `apply_color_effect` builds
and converts to RGB has hue and saturation channels uniformly equal to
the target color's hue and saturation, and a value channel equal, pixel
for pixel, to the value channel of the original background; the RGB
output is exactly the HSV→RGB conversion of that composite (whose
re-measured hue/saturation can differ at achromatic pixels, e.g. where
the value is 0). -/
theorem apply_color_effect_composite_contract
    (base_img : Image) (color : Nat × Nat × Nat) (i j : Nat) (p : Pixel)
    (hp : base_img.pixel i j = some p) :
    gridAt (apply_color_effect_hsv base_img color) i j
      = some ((rgb2hsv color.1 color.2.1 color.2.2).1,
              (rgb2hsv color.1 color.2.1 color.2.2).2.1,
              (rgb2hsv p.r p.g p.b).2.2)
    ∧ (apply_color_effect base_img color).pixel i j
      = some
          (let rgb := hsv2rgb (rgb2hsv color.1 color.2.1 color.2.2).1
              (rgb2hsv color.1 color.2.1 color.2.2).2.1 (rgb2hsv p.r p.g p.b).2.2
           ⟨rgb.1, rgb.2.1, rgb.2.2, 255⟩) := by
  have hcomp : gridAt (apply_color_effect_hsv base_img color) i j
      = some ((rgb2hsv color.1 color.2.1 color.2.2).1,
              (rgb2hsv color.1 color.2.1 color.2.2).2.1,
              (rgb2hsv p.r p.g p.b).2.2) := by
    unfold apply_color_effect_hsv
    rw [gridAt_mapGrid]
    have : gridAt (toRGB base_img) i j = some ⟨p.r, p.g, p.b, 255⟩ := by
      rw [← Image.pixel_eq_gridAt, toRGB_pixel, hp]
      rfl
    rw [this]
    rfl
  refine ⟨hcomp, ?_⟩
  unfold apply_color_effect
  rw [Image.pixel_eq_gridAt, gridAt_mapGrid, hcomp]
  rfl

theorem apply_color_effect_composite_contract_witness :
    gridAt (apply_color_effect_hsv [[⟨100, 150, 200, 255⟩]] (152, 0, 21)) 0 0
      = some ((rgb2hsv 152 0 21).1, (rgb2hsv 152 0 21).2.1, (rgb2hsv 100 150 200).2.2)
    ∧ (apply_color_effect [[⟨100, 150, 200, 255⟩]] (152, 0, 21)).pixel 0 0
      = some
          (let rgb := hsv2rgb (rgb2hsv 152 0 21).1 (rgb2hsv 152 0 21).2.1
              (rgb2hsv 100 150 200).2.2
           ⟨rgb.1, rgb.2.1, rgb.2.2, 255⟩) :=
  apply_color_effect_composite_contract [[⟨100, 150, 200, 255⟩]] (152, 0, 21) 0 0
    ⟨100, 150, 200, 255⟩ rfl

theorem blendChannel_self (f : ℚ) (a : Nat) (ha : a ≤ 255) :
    blendChannel f a a = a := by
  show (if ((a : ℚ) + f * ((a : ℚ) - (a : ℚ))) ≤ 0 then 0
    else if 255 ≤ ((a : ℚ) + f * ((a : ℚ) - (a : ℚ))) then 255
    else (⌊((a : ℚ) + f * ((a : ℚ) - (a : ℚ)))⌋).toNat) = a
  have h0 : (a : ℚ) + f * ((a : ℚ) - (a : ℚ)) = (a : ℚ) := by ring
  rw [h0]
  split
  · next h =>
      have : a = 0 := by exact_mod_cast Nat.cast_nonpos.mp h
      omega
  · split
    · next h =>
        have h255 : (255 : Nat) ≤ a := by exact_mod_cast h
        omega
    · simp

theorem contrastPixel_alpha (f : ℚ) (m : Nat) (p : Pixel) (ha : p.a ≤ 255) :
    (contrastPixel f m p).a = p.a := by
  unfold contrastPixel
  exact blendChannel_self f p.a ha

theorem keyPixel_alpha_cases (threshold : Nat) (p : Pixel) :
    (keyPixel threshold p).a = 0 ∨ (keyPixel threshold p).a = p.a := by
  unfold keyPixel
  split
  · exact Or.inl rfl
  · exact Or.inr rfl

/-- Claim C3: for any contrast factor, threshold, color and nonnegative
opacity, the composed pipeline (desaturate, contrast, background-key,
recolor) outputs an image in which every pixel is either exactly
(0,0,0,0) or carries exactly the foreground color with alpha at most
255 × opacity. -/
theorem stylize_flat_color_or_masked
    (factor : ℚ) (threshold : Nat) (color : Nat × Nat × Nat) (opacity : ℚ)
    (hop : 0 ≤ opacity) (img : Image)
    (hv : ∀ row ∈ img, ∀ p ∈ row, p.a ≤ 255)
    (i j : Nat) (q : Pixel)
    (hq : (stylize factor threshold color opacity img).pixel i j = some q) :
    q = ⟨0, 0, 0, 0⟩
    ∨ (q.r = color.1 ∧ q.g = color.2.1 ∧ q.b = color.2.2
        ∧ (q.a : ℚ) ≤ 255 * opacity) := by
  unfold stylize convert_to_red remove_white_background increase_contrast
    desaturate_image at hq
  rw [Image.pixel_mapPixels, Image.pixel_mapPixels, Image.pixel_mapPixels,
    Image.pixel_mapPixels] at hq
  cases hp : img.pixel i j with
  | none => rw [hp] at hq; cases hq
  | some p =>
      rw [hp] at hq
      simp only [Option.map] at hq
      obtain ⟨row, hrow, hpin⟩ := Image.pixel_mem img i j p hp
      have ha : p.a ≤ 255 := hv row hrow p hpin
      set pc := contrastPixel factor (contrastMean (Image.mapPixels desatPixel img))
        (desatPixel p) with hpc
      have hca : pc.a = p.a := contrastPixel_alpha _ _ _ ha
      set pk := keyPixel threshold pc with hpk
      have hka : pk.a = 0 ∨ pk.a = p.a := by
        rcases keyPixel_alpha_cases threshold pc with h | h
        · exact Or.inl h
        · exact Or.inr (h.trans hca)
      have hq' : convertPixel color opacity pk = q := by
        injection hq
      by_cases hpos : 0 < pk.a
      · right
        unfold convertPixel at hq'
        rw [if_pos hpos] at hq'
        subst hq'
        refine ⟨rfl, rfl, rfl, ?_⟩
        have hka' : pk.a ≤ 255 := by
          rcases hka with h | h <;> omega
        have hfl : ((⌊(pk.a : ℚ) * opacity⌋).toNat : ℚ) ≤ (pk.a : ℚ) * opacity := by
          have hnn : (0 : ℚ) ≤ (pk.a : ℚ) * opacity :=
            mul_nonneg (by positivity) hop
          have h1 : ((⌊(pk.a : ℚ) * opacity⌋).toNat : ℤ) = ⌊(pk.a : ℚ) * opacity⌋ :=
            Int.toNat_of_nonneg (Int.floor_nonneg.mpr hnn)
          calc ((⌊(pk.a : ℚ) * opacity⌋).toNat : ℚ)
              = (((⌊(pk.a : ℚ) * opacity⌋).toNat : ℤ) : ℚ) := by push_cast; ring
            _ = ((⌊(pk.a : ℚ) * opacity⌋ : ℤ) : ℚ) := by rw [h1]
            _ ≤ (pk.a : ℚ) * opacity := Int.floor_le _
        refine hfl.trans ?_
        have : (pk.a : ℚ) ≤ 255 := by exact_mod_cast hka'
        exact mul_le_mul_of_nonneg_right this hop
      · left
        unfold convertPixel at hq'
        rw [if_neg hpos] at hq'
        exact hq'.symm

theorem stylize_flat_color_or_masked_witness :
    (⟨255, 0, 0, 255⟩ : Pixel) = ⟨0, 0, 0, 0⟩
    ∨ ((⟨255, 0, 0, 255⟩ : Pixel).r = (255, 0, 0).1
        ∧ (⟨255, 0, 0, 255⟩ : Pixel).g = ((255 : Nat), (0 : Nat), (0 : Nat)).2.1
        ∧ (⟨255, 0, 0, 255⟩ : Pixel).b = ((255 : Nat), (0 : Nat), (0 : Nat)).2.2
        ∧ (((⟨255, 0, 0, 255⟩ : Pixel).a : ℚ) ≤ 255 * 1)) := by
  have hdp : desatPixel ⟨0, 0, 0, 255⟩ = ⟨0, 0, 0, 255⟩ := by decide
  have hmp : Image.mapPixels desatPixel [[⟨0, 0, 0, 255⟩]] = [[⟨0, 0, 0, 255⟩]] := by
    unfold Image.mapPixels
    simp [hdp]
  have hmean : contrastMean [[(⟨0, 0, 0, 255⟩ : Pixel)]] = 0 := by
    unfold contrastMean
    norm_num [lum]
  have hb0 : blendChannel 3 0 0 = 0 := by
    show (if ((0 : ℚ) + 3 * ((0 : ℚ) - (0 : ℚ))) ≤ 0 then 0
      else if 255 ≤ ((0 : ℚ) + 3 * ((0 : ℚ) - (0 : ℚ))) then 255
      else (⌊((0 : ℚ) + 3 * ((0 : ℚ) - (0 : ℚ)))⌋).toNat) = 0
    norm_num
  have hcp : contrastPixel 3 0 ⟨0, 0, 0, 255⟩ = ⟨0, 0, 0, 255⟩ := by
    unfold contrastPixel
    rw [hb0, blendChannel_self 3 255 (by omega)]
  have hkp : keyPixel 230 ⟨0, 0, 0, 255⟩ = ⟨0, 0, 0, 255⟩ := by decide
  have hcv : convertPixel (255, 0, 0) 1 ⟨0, 0, 0, 255⟩ = ⟨255, 0, 0, 255⟩ := by
    unfold convertPixel
    norm_num
    decide
  have hq : (stylize 3 230 (255, 0, 0) 1 [[⟨0, 0, 0, 255⟩]]).pixel 0 0
      = some ⟨255, 0, 0, 255⟩ := by
    unfold stylize convert_to_red remove_white_background increase_contrast
      desaturate_image
    rw [Image.pixel_mapPixels, Image.pixel_mapPixels, Image.pixel_mapPixels,
      Image.pixel_mapPixels]
    have hpx : Image.pixel [[⟨0, 0, 0, 255⟩]] 0 0 = some ⟨0, 0, 0, 255⟩ := rfl
    rw [hpx]
    simp only [Option.map, hdp, hmp, hmean, hcp, hkp, hcv]
  exact stylize_flat_color_or_masked 3 230 (255, 0, 0) 1 (by norm_num)
    [[⟨0, 0, 0, 255⟩]] (by decide) 0 0 ⟨255, 0, 0, 255⟩ hq

theorem Image.mapPixels_mapPixels (f g : Pixel → Pixel) (img : Image) :
    Image.mapPixels f (Image.mapPixels g img)
      = Image.mapPixels (fun p => f (g p)) img := by
  unfold Image.mapPixels
  rw [List.map_map]
  apply List.map_congr_left
  intro row _
  simp

theorem Image.mapPixels_id_of (h : Pixel → Pixel) (img : Image)
    (hh : ∀ row ∈ img, ∀ p ∈ row, h p = p) : Image.mapPixels h img = img := by
  unfold Image.mapPixels
  calc img.map (List.map h)
      = img.map id := by
        apply List.map_congr_left
        intro row hrow
        calc List.map h row
            = List.map id row := List.map_congr_left (fun p hp => hh row hrow p hp)
          _ = row := List.map_id row
    _ = img := List.map_id img

theorem blendChannel_3_m_76 (m : Nat) (hm : m ≤ 76) :
    blendChannel 3 m 76 = 228 - 2 * m := by
  show (if ((m : ℚ) + 3 * ((76 : ℚ) - (m : ℚ))) ≤ 0 then 0
    else if 255 ≤ ((m : ℚ) + 3 * ((76 : ℚ) - (m : ℚ))) then 255
    else (⌊((m : ℚ) + 3 * ((76 : ℚ) - (m : ℚ)))⌋).toNat) = 228 - 2 * m
  have hmq : (m : ℚ) ≤ 76 := by exact_mod_cast hm
  have hsub : (2 * m) ≤ 228 := by omega
  have hval : (m : ℚ) + 3 * ((76 : ℚ) - (m : ℚ)) = ((228 - 2 * m : Nat) : ℚ) := by
    rw [Nat.cast_sub hsub]
    push_cast
    ring
  rw [hval]
  have hpos : (0 : ℚ) < ((228 - 2 * m : Nat) : ℚ) := by
    have h0 : 0 < 228 - 2 * m := by omega
    exact_mod_cast h0
  have hlt : ¬(255 ≤ ((228 - 2 * m : Nat) : ℚ)) := by
    intro hc
    have : (255 : Nat) ≤ 228 - 2 * m := by exact_mod_cast hc
    omega
  rw [if_neg (not_le.mpr hpos), if_neg hlt, Int.floor_natCast]
  exact Int.toNat_natCast _

theorem blendChannel_3_m_0 (m : Nat) : blendChannel 3 m 0 = 0 := by
  show (if ((m : ℚ) + 3 * ((0 : ℚ) - (m : ℚ))) ≤ 0 then 0
    else if 255 ≤ ((m : ℚ) + 3 * ((0 : ℚ) - (m : ℚ))) then 255
    else (⌊((m : ℚ) + 3 * ((0 : ℚ) - (m : ℚ)))⌋).toNat) = 0
  have hc : ((m : ℚ) + 3 * ((0 : ℚ) - (m : ℚ))) ≤ 0 := by
    have h0 : (0 : ℚ) ≤ (m : ℚ) := by positivity
    nlinarith
  rw [if_pos hc]

/-- Claim C9: an image already in stylized form — every pixel either the
flat foreground color (255,0,0) at full alpha or exactly (0,0,0,0) — is a
fixed point of the stylization composition of
`process_image_for_papercut` (desaturate, contrast factor 3, key at
threshold 230, recolor to (255,0,0) at opacity 1). -/
theorem stylize_papercut_idempotent_on_stylized (img : Image)
    (hst : ∀ row ∈ img, ∀ p ∈ row, p = ⟨255, 0, 0, 255⟩ ∨ p = ⟨0, 0, 0, 0⟩) :
    stylizePapercut img = img := by
  have hlb : ∀ q ∈ (Image.mapPixels desatPixel img).flatten, lum q.r q.g q.b ≤ 76 := by
    intro q hq
    rw [List.mem_flatten] at hq
    obtain ⟨row, hrow, hqrow⟩ := hq
    unfold Image.mapPixels at hrow
    rw [List.mem_map] at hrow
    obtain ⟨row₀, hrow₀, rfl⟩ := hrow
    rw [List.mem_map] at hqrow
    obtain ⟨p, hp, rfl⟩ := hqrow
    rcases hst row₀ hrow₀ p hp with rfl | rfl
    · decide
    · decide
  have hmb : contrastMean (Image.mapPixels desatPixel img) ≤ 76 := by
    show (if (Image.mapPixels desatPixel img).flatten.length = 0 then 0
      else (⌊((((Image.mapPixels desatPixel img).flatten.map fun p =>
            lum p.r p.g p.b).sum : Nat) : ℚ)
          / (((Image.mapPixels desatPixel img).flatten.length : Nat) : ℚ) + 1/2⌋).toNat) ≤ 76
    split
    · omega
    · next hn =>
        set L := (Image.mapPixels desatPixel img).flatten with hL
        have hsum : (L.map fun p => lum p.r p.g p.b).sum ≤ L.length * 76 := by
          have := List.sum_le_card_nsmul (L.map fun p => lum p.r p.g p.b) 76 ?bound
          · simpa [List.length_map, smul_eq_mul] using this
          case bound =>
            intro x hx
            rw [List.mem_map] at hx
            obtain ⟨q, hq, rfl⟩ := hx
            exact hlb q hq
        have hnpos : (0 : ℚ) < (L.length : ℚ) := by
          have : 0 < L.length := Nat.pos_of_ne_zero hn
          exact_mod_cast this
        have hdiv : (((L.map fun p => lum p.r p.g p.b).sum : Nat) : ℚ) / (L.length : ℚ) ≤ 76 := by
          rw [div_le_iff₀ hnpos]
          calc (((L.map fun p => lum p.r p.g p.b).sum : Nat) : ℚ)
              ≤ ((L.length * 76 : Nat) : ℚ) := by exact_mod_cast hsum
            _ = 76 * (L.length : ℚ) := by push_cast; ring
        have hfl : ⌊(((L.map fun p => lum p.r p.g p.b).sum : Nat) : ℚ)
            / (L.length : ℚ) + 1/2⌋ ≤ 76 := by
          have hle : (((L.map fun p => lum p.r p.g p.b).sum : Nat) : ℚ)
              / (L.length : ℚ) + 1/2 ≤ (153/2 : ℚ) := by linarith
          have h1 := Int.floor_le_floor hle
          have h2 : ⌊(153/2 : ℚ)⌋ = 76 := by norm_num
          omega
        exact Int.toNat_le.mpr hfl
  have hkerR : convertPixel (255, 0, 0) 1
      (keyPixel 230 (contrastPixel 3 (contrastMean (Image.mapPixels desatPixel img))
        (desatPixel ⟨255, 0, 0, 255⟩))) = ⟨255, 0, 0, 255⟩ := by
    have hd : desatPixel ⟨255, 0, 0, 255⟩ = ⟨76, 76, 76, 255⟩ := by decide
    rw [hd]
    set m := contrastMean (Image.mapPixels desatPixel img) with hm
    have hc : contrastPixel 3 m ⟨76, 76, 76, 255⟩
        = ⟨228 - 2 * m, 228 - 2 * m, 228 - 2 * m, 255⟩ := by
      unfold contrastPixel
      rw [blendChannel_3_m_76 m hmb, blendChannel_self 3 255 (by omega)]
    rw [hc]
    have hk : keyPixel 230 (⟨228 - 2 * m, 228 - 2 * m, 228 - 2 * m, 255⟩ : Pixel)
        = ⟨228 - 2 * m, 228 - 2 * m, 228 - 2 * m, 255⟩ := by
      unfold keyPixel
      rw [if_neg]
      intro hcontra
      have h1 : 230 < 228 - 2 * m := hcontra.1
      omega
    rw [hk]
    unfold convertPixel
    have hpos : 0 < (⟨228 - 2 * m, 228 - 2 * m, 228 - 2 * m, 255⟩ : Pixel).a := by
      show (0 : Nat) < 255
      omega
    rw [if_pos hpos]
    show (⟨(255 : Nat), (0 : Nat), (0 : Nat), (⌊((255 : Nat) : ℚ) * 1⌋).toNat⟩ : Pixel)
      = ⟨255, 0, 0, 255⟩
    have h255 : (⌊((255 : Nat) : ℚ) * 1⌋).toNat = 255 := by
      norm_num
      decide
    rw [h255]
  have hkerT : convertPixel (255, 0, 0) 1
      (keyPixel 230 (contrastPixel 3 (contrastMean (Image.mapPixels desatPixel img))
        (desatPixel ⟨0, 0, 0, 0⟩))) = ⟨0, 0, 0, 0⟩ := by
    have hd : desatPixel ⟨0, 0, 0, 0⟩ = ⟨0, 0, 0, 0⟩ := by decide
    rw [hd]
    set m := contrastMean (Image.mapPixels desatPixel img) with hm
    have hc : contrastPixel 3 m ⟨0, 0, 0, 0⟩ = ⟨0, 0, 0, 0⟩ := by
      unfold contrastPixel
      rw [blendChannel_3_m_0 m]
      rw [show blendChannel 3 0 0 = 0 from blendChannel_3_m_0 0]
    rw [hc]
    have hk : keyPixel 230 (⟨0, 0, 0, 0⟩ : Pixel) = ⟨0, 0, 0, 0⟩ := by decide
    rw [hk]
    decide
  unfold stylizePapercut stylize convert_to_red remove_white_background
    increase_contrast desaturate_image
  rw [Image.mapPixels_mapPixels, Image.mapPixels_mapPixels, Image.mapPixels_mapPixels]
  apply Image.mapPixels_id_of
  intro row hrow p hp
  rcases hst row hrow p hp with rfl | rfl
  · exact hkerR
  · exact hkerT

theorem stylize_papercut_idempotent_on_stylized_witness :
    stylizePapercut [[⟨255, 0, 0, 255⟩, ⟨0, 0, 0, 0⟩]]
      = [[⟨255, 0, 0, 255⟩, ⟨0, 0, 0, 0⟩]] :=
  stylize_papercut_idempotent_on_stylized [[⟨255, 0, 0, 255⟩, ⟨0, 0, 0, 0⟩]] (by decide)

theorem ceil_sub_floor_toNat_1396 (M m : ℚ) (hM1 : 1201 < M) (hM2 : M ≤ 1202)
    (hm1 : -194 ≤ m) (hm2 : m < -193) : (⌈M⌉ - ⌊m⌋).toNat = 1396 := by
  have hceil : ⌈M⌉ = 1202 := by
    rw [Int.ceil_eq_iff]
    constructor
    · push_cast
      linarith
    · push_cast
      exact hM2
  have hfloor : ⌊m⌋ = -194 := by
    rw [Int.floor_eq_iff]
    constructor
    · push_cast
      exact hm1
    · push_cast
      linarith
  rw [hceil, hfloor]
  decide

/-- Claim C4: in the package scene, a square cutout is resized to
1008×1008 on the reference 4032×2688 background, the rotation is 33° CCW
with an expanded canvas and bicubic resampling, the rotate-with-expand
output size is 1396×1396 for any rotation-matrix entries within tight
rational bounds around cos 33° and sin 33°, the anchor is computed from
those post-rotation dimensions — (1237, 601) — and it differs from the
naive anchor computed from the pre-rotation 1008×1008 size. -/
theorem package_anchor_uses_post_rotation_size
    (pw : Nat) (hpw : 0 < pw) (c s : ℚ)
    (hc1 : 83867/100000 ≤ c) (hc2 : c ≤ 83868/100000)
    (hs1 : 54463/100000 ≤ s) (hs2 : s ≤ 54464/100000) :
    packageRotationSpec = ⟨33, true, Resample.bicubic⟩
    ∧ packageTargetSize 4032 pw pw = (1008, 1008)
    ∧ pilRotateExpandSize c s 1008 1008 = (1396, 1396)
    ∧ packageAnchor 4032 2688 1396 1396 = (1237, 601)
    ∧ packageAnchor 4032 2688 1396 1396 ≠ packageAnchor 4032 2688 1008 1008 := by
  have hc0 : (0 : ℚ) < c := by linarith
  have hs0 : (0 : ℚ) < s := by linarith
  refine ⟨rfl, ?_, ?_, ?_, ?_⟩
  · show ((⌊(4032 : ℚ) * (25 / 100)⌋).toNat,
      (⌊((((⌊(4032 : ℚ) * (25 / 100)⌋).toNat : Nat) : ℚ) * ((pw : ℚ) / (pw : ℚ)))⌋).toNat)
      = (1008, 1008)
    have htw : (⌊(4032 : ℚ) * (25 / 100)⌋).toNat = 1008 := by
      have h1 : ⌊(4032 : ℚ) * (25 / 100)⌋ = 1008 := by norm_num
      rw [h1]
      decide
    rw [htw]
    have hr : (pw : ℚ) / (pw : ℚ) = 1 := by
      apply div_self
      exact_mod_cast hpw.ne'
    rw [hr, mul_one]
    have h2 : ⌊((1008 : Nat) : ℚ)⌋ = 1008 := by
      rw [Int.floor_natCast]
      rfl
    rw [h2]
    rfl
  · simp only [pilRotateExpandSize]
    have hw : ((1008 : Nat) : ℚ) = 1008 := by norm_num
    rw [hw]
    simp only [Prod.mk.injEq]
    constructor
    · apply ceil_sub_floor_toNat_1396
      · calc (1201 : ℚ) < c * (1008 - 1008 / 2) - s * (0 - 1008 / 2) + 1008 / 2 := by
              linarith
          _ ≤ max (c * (0 - 1008 / 2) - s * (0 - 1008 / 2) + 1008 / 2)
                (c * (1008 - 1008 / 2) - s * (0 - 1008 / 2) + 1008 / 2) := le_max_right _ _
          _ ≤ _ := le_max_left _ _
      · refine max_le (max_le ?_ ?_) (max_le ?_ ?_) <;> linarith
      · refine le_min (le_min ?_ ?_) (le_min ?_ ?_) <;> linarith
      · calc min (min (c * (0 - 1008 / 2) - s * (0 - 1008 / 2) + 1008 / 2)
                (c * (1008 - 1008 / 2) - s * (0 - 1008 / 2) + 1008 / 2))
              (min (c * (1008 - 1008 / 2) - s * (1008 - 1008 / 2) + 1008 / 2)
                (c * (0 - 1008 / 2) - s * (1008 - 1008 / 2) + 1008 / 2))
            ≤ c * (0 - 1008 / 2) - s * (1008 - 1008 / 2) + 1008 / 2 :=
              le_trans (min_le_right _ _) (min_le_right _ _)
          _ < -193 := by linarith
    · apply ceil_sub_floor_toNat_1396
      · calc (1201 : ℚ) < s * (1008 - 1008 / 2) + c * (1008 - 1008 / 2) + 1008 / 2 := by
              linarith
          _ ≤ max (s * (1008 - 1008 / 2) + c * (1008 - 1008 / 2) + 1008 / 2)
                (s * (0 - 1008 / 2) + c * (1008 - 1008 / 2) + 1008 / 2) := le_max_left _ _
          _ ≤ _ := le_max_right _ _
      · refine max_le (max_le ?_ ?_) (max_le ?_ ?_) <;> linarith
      · refine le_min (le_min ?_ ?_) (le_min ?_ ?_) <;> linarith
      · calc min (min (s * (0 - 1008 / 2) + c * (0 - 1008 / 2) + 1008 / 2)
                (s * (1008 - 1008 / 2) + c * (0 - 1008 / 2) + 1008 / 2))
              (min (s * (1008 - 1008 / 2) + c * (1008 - 1008 / 2) + 1008 / 2)
                (s * (0 - 1008 / 2) + c * (1008 - 1008 / 2) + 1008 / 2))
            ≤ s * (0 - 1008 / 2) + c * (0 - 1008 / 2) + 1008 / 2 :=
              le_trans (min_le_left _ _) (min_le_left _ _)
          _ < -193 := by linarith
  · unfold packageAnchor packageCenter
    have hcx : ⌊((4032 : Nat) : ℚ) * (48 / 100)⌋ = 1935 := by norm_num
    have hcy : ⌊((2688 : Nat) : ℚ) * (4833 / 10000)⌋ = 1299 := by norm_num
    rw [hcx, hcy]
    rfl
  · unfold packageAnchor packageCenter
    have hcx : ⌊((4032 : Nat) : ℚ) * (48 / 100)⌋ = 1935 := by norm_num
    have hcy : ⌊((2688 : Nat) : ℚ) * (4833 / 10000)⌋ = 1299 := by norm_num
    rw [hcx, hcy]
    decide

theorem package_anchor_uses_post_rotation_size_witness :
    packageRotationSpec = ⟨33, true, Resample.bicubic⟩
    ∧ packageTargetSize 4032 7 7 = (1008, 1008)
    ∧ pilRotateExpandSize (8386706/10000000) (5446390/10000000) 1008 1008 = (1396, 1396)
    ∧ packageAnchor 4032 2688 1396 1396 = (1237, 601)
    ∧ packageAnchor 4032 2688 1396 1396 ≠ packageAnchor 4032 2688 1008 1008 :=
  package_anchor_uses_post_rotation_size 7 (by omega) (8386706/10000000) (5446390/10000000)
    (by norm_num) (by norm_num) (by norm_num) (by norm_num)
